import Mathlib

/-!
Verification of the decision pipeline of the Informatics repository:
quality-gate scoring (pipeline/quality_gate/scorer.py), document
classification (pipeline/classification/classify.py) and cross-document
validation (pipeline/validation/schema_validator.py and
pipeline/validation/period_detector.py).

Python strings are modelled by Lean `String` (a wrapper around
`List Char`); Python lists by Lean lists; Python `float`/`int`
arithmetic by exact `ℚ`/`ℤ`/`ℕ` arithmetic; functions that can raise
return `Option`.  The regex scans of the standard-library `re` module
enter the embedding either concretely (when the pattern is simple
enough to transcribe character by character, as in period_detector.py)
or as an explicit function parameter (a "matcher" oracle), so that the
control flow and arithmetic of the pipeline, which is what the claims
are about, is proved for every behaviour of the scanning layer.
-/

namespace Informatics

/-- Models Python `pathlib.Path(p).name` for the slash-separated relative
paths the pipeline passes around: the part after the last `/`. -/
def pathName (s : String) : String := (s.splitOn "/").getLastD s

/-- Models Python `round(q, 1)` (round half to even at the first decimal)
on the exact rational values produced by the classifier. -/
def round1 (q : ℚ) : ℚ :=
  (((if 1 / 2 < q * 10 - (Int.floor (q * 10) : ℚ) then Int.floor (q * 10) + 1
     else if q * 10 - (Int.floor (q * 10) : ℚ) < 1 / 2 then Int.floor (q * 10)
     else if Int.floor (q * 10) % 2 = 0 then Int.floor (q * 10)
     else Int.floor (q * 10) + 1) : ℤ) : ℚ) / 10

/-- Numeric value of a list of decimal digit characters, as Python
`int` computes it on a digit-only string. -/
def digitsVal (cs : List Char) : ℕ := cs.foldl (fun n c => 10 * n + (c.toNat - 48)) 0

/-- Models Python `str.split("-")` on the character list of a string. -/
def splitDash : List Char → List (List Char)
  | [] => [[]]
  | c :: rest =>
    if c = '-' then [] :: splitDash rest
    else
      match splitDash rest with
      | [] => [[c]]
      | h :: t => (c :: h) :: t

/-- Python `p.split("-")` (period_detector.py line 47/48). -/
def pySplitDash (s : String) : List String := (splitDash s.data).map String.mk

/-- Models Python `int(s)` on the digit-only strings that reach it in
detect_missing_months; any other string raises ValueError, modelled as
`none`. -/
def pyIntDigits (s : String) : Option ℕ :=
  if !s.data.isEmpty && s.data.all Char.isDigit then some (digitsVal s.data) else none

/-- Character-level transcription of `re.match(r"(20\d{2})-(0[1-9]|1[0-2])", p)`
(period_detector.py line 43): a prefix match anchored at the start. -/
def isYMToken (p : String) : Bool :=
  match p.data with
  | a :: b :: c2 :: c3 :: d :: m1 :: m2 :: _ =>
    a == '2' && b == '0' && c2.isDigit && c3.isDigit && d == '-' &&
      ((m1 == '0' && m2.isDigit && !(m2 == '0')) ||
       (m1 == '1' && (m2 == '0' || m2 == '1' || m2 == '2')))
  | _ => false

/-- The year read from an exact `YYYY-MM` token. -/
def tokenYear (p : String) : ℕ := digitsVal (p.data.take 4)

/-- The month read from an exact `YYYY-MM` token. -/
def tokenMonth (p : String) : ℕ := digitsVal (p.data.drop 5)

/-- Python `f"{year}-{month:02d}"` for months 1..12. -/
def formatYM (y mo : ℕ) : String :=
  toString y ++ "-" ++ (if mo < 10 then "0" ++ toString mo else toString mo)

/-- Python `range(1, 13)` (period_detector.py line 51). -/
def monthsList : List ℕ := [1, 2, 3, 4, 5, 6, 7, 8, 9, 10, 11, 12]

/-- Effectful list map over `Option`, modelling a Python comprehension
whose body may raise (the exception propagates as `none`). -/
def mapOpt (f : α → Option β) : List α → Option (List β)
  | [] => some []
  | a :: t =>
    match f a, mapOpt f t with
    | some b, some bs => some (b :: bs)
    | _, _ => none

/-- Embedding of `detect_missing_months` (period_detector.py lines 39-54):
keep the tokens whose prefix matches `(20\d{2})-(0[1-9]|1[0-2])`, collect
the distinct years (sorted) and the global months-present set, and report
`YYYY-MM` for every year and every month 1..12 not present.  `none` models
the ValueError that `int()` raises on a malformed filtered token. -/
def detect_missing_months (periods : List String) : Option (List String) :=
  let ymValues := periods.filter (fun p => isYMToken p)
  if ymValues.isEmpty then some []
  else
    (mapOpt (fun p => pyIntDigits ((pySplitDash p).headD "")) ymValues).bind
      (fun yearsRaw =>
        (mapOpt (fun p => pyIntDigits ((pySplitDash p).getD 1 "")) ymValues).bind
          (fun monthsRaw =>
            let years := List.insertionSort (· ≤ ·) yearsRaw.dedup
            some (years.flatMap (fun y =>
              (monthsList.filter (fun mo => !(decide (mo ∈ monthsRaw)))).map
                (fun mo => formatYM y mo)))))

/-! ## Cross-document validator (pipeline/validation/schema_validator.py) -/

/-- The text-scanning primitives of the validator that are implemented with
`re` in the source (detect_periods of period_detector.py, _extract_numbers
and _detect_dates of schema_validator.py).  The validator's control flow is
proved for every behaviour of these functions. -/
structure TextOracles where
  detectPeriods : String → List String
  extractNumbers : String → List ℚ
  detectDates : String → Bool

/-- The classifier-produced flag lists of one document
(`structured["flags"]` of classify.py). -/
structure Flags where
  missingFields : List String
  suspiciousValues : List String
  formatErrors : List String

/-- Models the `classification_map` lookup of schema_validator.py lines
48-51 and 65-70: a dict built by insertion (later entries win), with empty
flags when the path is absent. -/
def lookupFlags (classification : List (String × Flags)) (path : String) : Flags :=
  match classification.reverse.find? (fun e => e.1 == path) with
  | some e => e.2
  | none => ⟨[], [], []⟩

/-- Per-document record built by the validator loop
(schema_validator.py lines 77-88). -/
structure ValidationDetail where
  path : String
  periods : List String
  numericValuesFound : ℕ
  missingMonths : List String
  passesNumericPresence : Bool
  passesPeriodDetection : Bool
  hasDates : Bool
  missingFields : List String
  suspiciousValues : List String
  formatErrors : List String

/-- Package-level aggregate (schema_validator.py lines 101-108). -/
structure ValidationSummary where
  documentsValidated : ℕ
  yearsDetected : List ℕ
  continuityBreaks : List String
  missingMonths : List String
  completenessFailures : ℕ
  passes : Bool

/-- One iteration of the validator loop (schema_validator.py lines 53-89).
`none` propagates an exception raised by detect_missing_months.  The
alphabetic-character count `len(re.findall(r"[A-Za-z]", text))` is
transcribed concretely. -/
def buildDetail (o : TextOracles) (classification : List (String × Flags))
    (pt : String × String) : Option ValidationDetail :=
  let periods := o.detectPeriods pt.2
  let numbers := o.extractNumbers pt.2
  (detect_missing_months periods).map (fun mm =>
    let hasDates := o.detectDates pt.2
    let alphaChars := (pt.2.data.filter Char.isAlpha).length
    let numericCount := numbers.length
    let sparseText := alphaChars < 20 && numericCount < 5
    let flags := lookupFlags classification pt.1
    let fe1 := if !hasDates then flags.formatErrors ++ ["missing dates"]
               else flags.formatErrors
    let fe2 := if sparseText then fe1 ++ ["sparse content"] else fe1
    { path := pt.1
      periods := periods
      numericValuesFound := numericCount
      missingMonths := mm
      passesNumericPresence := decide (5 < numbers.length)
      passesPeriodDetection := decide (0 < periods.length)
      hasDates := hasDates
      missingFields := flags.missingFields
      suspiciousValues := flags.suspiciousValues
      formatErrors := fe2 })

/-- Python `len(p) >= 4 and p[:4].isdigit()` guard with `int(p[:4])`
(schema_validator.py line 91). -/
def yearOfPeriod (p : String) : Option ℕ :=
  if 4 ≤ p.data.length && (p.data.take 4).all Char.isDigit then
    some (digitsVal (p.data.take 4))
  else none

/-- Sorted deduplicated list, Python `sorted(set(l))` for naturals. -/
def pySortedSetNat (l : List ℕ) : List ℕ := List.insertionSort (· ≤ ·) l.dedup

/-- Sorted deduplicated list, Python `sorted(set(l))` for strings,
ordered by the code-point order of core's `String` lt. -/
def pySortedSetStr (l : List String) : List String :=
  List.insertionSort (fun a b => ¬ b < a) l.dedup

/-- Embedding of `validate_documents` (schema_validator.py lines 33-113).
The report is the pair (summary, details); `none` models an uncaught
exception from detect_missing_months. -/
def validate_documents (o : TextOracles) (pdfTexts : List (String × String))
    (classification : List (String × Flags)) :
    Option (ValidationSummary × List ValidationDetail) :=
  (mapOpt (buildDetail o classification) pdfTexts).map (fun details =>
    let allPeriods := details.flatMap (fun d => d.periods)
    let years := pySortedSetNat (allPeriods.filterMap yearOfPeriod)
    let continuityBreaks := (years.zip years.tail).filterMap (fun pr =>
      if pr.1 + 1 < pr.2 then
        some ("Gap between " ++ toString pr.1 ++ " and " ++ toString pr.2)
      else none)
    let completenessFailures := details.filter (fun d =>
      !d.missingFields.isEmpty || !d.formatErrors.isEmpty || !d.passesNumericPresence)
    ({ documentsValidated := pdfTexts.length
       yearsDetected := years
       continuityBreaks := continuityBreaks
       missingMonths := pySortedSetStr (details.flatMap (fun d => d.missingMonths))
       completenessFailures := completenessFailures.length
       passes := continuityBreaks.isEmpty && completenessFailures.isEmpty },
     details))

/-! ## Aliasing model for the validator's flag lists

In the Python source the validator looks the classifier's `format_errors`
list up by reference and appends to it in place (schema_validator.py lines
70-75), so the classifier's own record changes.  The heap of Python list
objects is modelled by an explicit store of lists addressed by index, and
the classification report holds references into that store. -/

/-- References held by one classification record into the list store. -/
structure FlagRefs where
  missingFields : ℕ
  suspiciousValues : ℕ
  formatErrors : ℕ

/-- Reading a Python list object through its reference. -/
def storeGet (st : List (List String)) (r : ℕ) : List String := st.getD r []

/-- `list.append` / rebinding through a reference: the store is updated at
the referenced cell. -/
def storeSet (st : List (List String)) (r : ℕ) (v : List String) :
    List (List String) := st.set r v

/-- The validator loop of schema_validator.py lines 53-89 restricted to its
effect on the store of flag lists: for each document whose path has a
classification record, `format_errors` is fetched through the reference,
"missing dates" and "sparse content" are appended under the same conditions
as in the source, and the append writes back through the same reference. -/
def validate_documents_flag_store (o : TextOracles)
    (pdfTexts : List (String × String)) (classRefs : List (String × FlagRefs))
    (st : List (List String)) : List (List String) :=
  pdfTexts.foldl (fun st pt =>
    match classRefs.reverse.find? (fun e => e.1 == pt.1) with
    | none => st
    | some e =>
      let hasDates := o.detectDates pt.2
      let sparseText := ((pt.2.data.filter Char.isAlpha).length < 20) &&
        ((o.extractNumbers pt.2).length < 5)
      let fe0 := storeGet st e.2.formatErrors
      let fe1 := if !hasDates then fe0 ++ ["missing dates"] else fe0
      let fe2 := if sparseText then fe1 ++ ["sparse content"] else fe1
      storeSet st e.2.formatErrors fe2) st

/-- Oracle assignment under which no date pattern is found in any text and
no numbers are extracted; used to exhibit the in-place mutation. -/
def oNoDates : TextOracles :=
  { detectPeriods := fun _ => []
    extractNumbers := fun _ => []
    detectDates := fun _ => false }

/-! ## Quality-gate scorer (pipeline/quality_gate/scorer.py) -/

/-- The 7-term vocabulary of `_detect_missing_financial_terms`
(scorer.py line 46). -/
def financialTerms : List String :=
  ["revenue", "cash", "assets", "liabilities", "income", "balance", "flow"]

/-- Embedding of `_detect_missing_financial_terms` (scorer.py lines 40-51).
`available` is `PDF_EXTRACTION_AVAILABLE`; `containsTerm t` reports whether
`t in aggregated_text.lower()` for the concatenated PDF text. -/
def detect_missing_financial_terms (available : Bool)
    (containsTerm : String → Bool) : List String :=
  if !available then []
  else
    let missing := financialTerms.filter (fun t => !containsTerm t)
    if financialTerms.length - 2 ≤ missing.length then
      ["Missing key financial terms: " ++ String.intercalate ", " missing]
    else []

/-- The result dictionary of `score_zip`.  The invalid-archive early return
(scorer.py lines 76-86) builds a dictionary without the `sparse_pdfs` and
`missing_terms` keys; those fields are therefore `Option`, with `none` for
"key absent / check not performed". -/
structure GateScoreResult where
  status : String
  totalScore : ℤ
  issues : List String
  missingRequired : List String
  corruptPdfs : List String
  sparsePdfs : Option (List String)
  missingTerms : Option (List String)
  inconsistentNaming : List String
  folderIssues : List String
  files : List String

/-- Embedding of `score_zip` (scorer.py lines 69-145).  `isZip` is
`zipfile.is_zipfile(zip_path)`; the manifest-derived lists produced by
gate_rules.py (`find_missing_required`, `detect_folder_structure`,
`detect_inconsistent_naming`) and the extraction scans
(`_scan_for_corrupt_pdfs`, `_scan_for_sparse_content`) enter as
parameters, and the keyword-coverage check is computed by
`detect_missing_financial_terms` exactly as at scorer.py line 102. -/
def score_zip (isZip : Bool) (fileNames : List String)
    (missingRequired folderIssues namingIssues corruptPdfs sparsePdfs : List String)
    (available : Bool) (containsTerm : String → Bool) : GateScoreResult :=
  if !isZip then
    { status := "BAD"
      totalScore := 0
      issues := ["Not a valid zip archive"]
      missingRequired := []
      corruptPdfs := []
      sparsePdfs := none
      missingTerms := none
      inconsistentNaming := []
      folderIssues := []
      files := [] }
  else
    let missingTerms := detect_missing_financial_terms available containsTerm
    let penalties : ℤ :=
      (missingRequired.length : ℤ) * 20 + (folderIssues.length : ℤ) * 10 +
      (namingIssues.length : ℤ) * 5 + (corruptPdfs.length : ℤ) * 25 +
      (sparsePdfs.length : ℤ) * 10 + (missingTerms.length : ℤ) * 10
    let totalScore := max 0 (100 - penalties)
    let status :=
      if 70 ≤ totalScore ∧ missingRequired = [] ∧ corruptPdfs = [] then "GOOD"
      else "BAD"
    let issues :=
      (if missingRequired.isEmpty then []
       else ["Missing required docs: " ++ String.intercalate ", " missingRequired]) ++
      folderIssues ++ namingIssues ++
      (if corruptPdfs.isEmpty then []
       else ["Corrupt PDFs: " ++
         String.intercalate ", " (corruptPdfs.map pathName)]) ++
      (if sparsePdfs.isEmpty then []
       else ["Sparse numeric content in: " ++
         String.intercalate ", " (sparsePdfs.map pathName)]) ++
      missingTerms
    { status := status
      totalScore := totalScore
      issues := issues
      missingRequired := missingRequired
      corruptPdfs := corruptPdfs
      sparsePdfs := some sparsePdfs
      missingTerms := some missingTerms
      inconsistentNaming := namingIssues
      folderIssues := folderIssues
      files := fileNames }

/-! ## Document classifier (pipeline/classification/classify.py) -/

/-- Abstract interface for `re.search(pattern, haystack, re.IGNORECASE)` as
the classifier uses it: whether a match exists.  The scoring and selection
logic is proved for every matcher. -/
def Matcher : Type := String → String → Bool

/-- `LABEL_PATTERNS` (classify.py lines 13-21), with the exact pattern
strings of the source, in source order.  (The source's raw strings contain
doubled backslashes; they are reproduced verbatim.) -/
def labelPatterns : List (String × List String) :=
  [("income_statement", ["income[_\\\\s]?statement", "p&l", "profit[_\\\\s]?loss"]),
   ("balance_sheet", ["balance[_\\\\s]?sheet"]),
   ("cash_flow", ["cash[_\\\\s]?flow"]),
   ("bank_statement", ["bank[_\\\\s]?statement"]),
   ("ar_aging", ["aging", "accounts[_\\\\s]?receivable"]),
   ("cap_table", ["cap[_\\\\s]?table", "capitalization"]),
   ("contract", ["contract", "agreement"])]

/-- Embedding of `_score_label` (classify.py lines 34-45): each pattern is
tried against the filename and against the text, every hit counts one, the
score is `min(1.0, 0.25 * hits)`. -/
def score_label (m : Matcher) (ps : List String) (text filename : String) :
    ℚ × List String :=
  let z := ps.foldl
    (fun acc p =>
      let acc := if m p filename then
        (acc.1 + 1, acc.2 ++ ["Filename matches " ++ p]) else acc
      if m p text then (acc.1 + 1, acc.2 ++ ["Text matches " ++ p]) else acc)
    ((0 : ℕ), ([] : List String))
  (min 1 ((z.1 : ℚ) / 4), z.2)

/-- The total number of pattern hits counted by `_score_label`. -/
def hitCount (m : Matcher) (ps : List String) (text filename : String) : ℕ :=
  ps.foldl (fun n p =>
    n + (if m p filename then 1 else 0) + (if m p text then 1 else 0)) 0

/-- The best-so-far loop of `classify_document` (classify.py lines
229-234): the running record is replaced only when the new score is
strictly greater. -/
def classifyFold (g : String × List String → ℚ × List String)
    (L : List (String × List String)) (acc : String × ℚ × List String) :
    String × ℚ × List String :=
  L.foldl (fun acc lp =>
    let r := g lp
    if acc.2.1 < r.1 then (lp.1, r) else acc) acc

/-- Running maximum of the scores of a label table over an initial value. -/
def maxFold (g : String × List String → ℚ × List String)
    (L : List (String × List String)) (q : ℚ) : ℚ :=
  L.foldl (fun q lp => max q (g lp).1) q

/-- The highest archetype score for a document (0 when nothing matches). -/
def bestScore (m : Matcher) (text filename : String) : ℚ :=
  maxFold (fun lp => score_label m lp.2 text filename) labelPatterns 0

/-- Classification result of one document (classify.py lines 236-242,
without the structured extraction, which is modelled separately). -/
structure ClassificationRecord where
  path : String
  label : String
  confidence : ℚ
  reasons : List String

/-- Embedding of `classify_document` (classify.py lines 224-242): scores
every archetype of `LABEL_PATTERNS` in table order against the body text
and `Path(path).name`, keeps the strictly best one starting from
`("unknown", 0.0, ["No patterns matched"])`, and reports
`round(best_confidence * 100, 1)`. -/
def classify_document (m : Matcher) (path text : String) : ClassificationRecord :=
  let fn := pathName path
  let best := classifyFold (fun lp => score_label m lp.2 text fn) labelPatterns
    ("unknown", (0 : ℚ), ["No patterns matched"])
  { path := path
    label := best.1
    confidence := round1 (best.2.1 * 100)
    reasons := best.2.2 }

/-- Spec-side selection: the first archetype of the table whose score
equals the best score, or "unknown" when no archetype scores above 0. -/
def firstBestLabel (m : Matcher) (text filename : String) : String :=
  let b := bestScore m text filename
  if b = 0 then "unknown"
  else
    match labelPatterns.find?
      (fun lp => decide ((score_label m lp.2 text filename).1 = b)) with
    | some lp => lp.1
    | none => "unknown"

/-! ## Structured extraction: balance check, ownership check, placeholders

The extraction regexes of classify.py are written with doubled
backslashes inside raw strings (byte-for-byte, e.g.
`r"total assets[^\\d]+(-?[\\d,\\.]+)"`), so the character class
`[\\d,\\.]` matches the literal characters backslash, `d`, comma and dot
rather than digits, and `\\b` matches a literal backslash followed by
`b` rather than a word boundary.  The definitions below model exactly
what those patterns can capture, to settle C5, C6 and C7. -/

/-- The language of group 1 of the double-escaped numeric patterns of
classify.py (e.g. `(-?[\\d,\\.]+)` at lines 100-101): an optional leading
minus sign followed by a nonempty word over the four literal characters
backslash, `d`, comma, dot. -/
def brokenNumCapture (cs : List Char) : Bool :=
  match cs with
  | [] => false
  | c :: rest =>
    let body := if c == '-' then rest else c :: rest
    !body.isEmpty &&
      body.all (fun ch => ch == '\\' || ch == 'd' || ch == ',' || ch == '.')

/-- The loop of `_extract_number` (classify.py lines 48-58) applied to the
captured groups of the successive pattern matches: commas are stripped,
`float()` is attempted, the first success is returned and a parse failure
moves on to the next match. -/
def firstParsed (pyFloat : List Char → Option ℚ) : List (List Char) → Option ℚ
  | [] => none
  | c :: t =>
    match pyFloat (c.filter (fun ch => !(ch == ','))) with
    | some v => some v
    | none => firstParsed pyFloat t

/-- The balance check of `_extract_balance_sheet` (classify.py lines
99-103): a non-balancing format error exactly when both totals were
extracted and differ by more than 1. -/
def non_balancing_errors (ta tle : Option ℚ) : List String :=
  match ta, tle with
  | some a, some l =>
    if 1 < |a - l| then ["non_balancing: assets != liabilities + equity"] else []
  | _, _ => []

/-- The tail of `_extract_cap_table` (classify.py lines 157-166) as a
function of the parsed rows (shareholder, ownership_percent, shares):
ownership total, missing fields for zero rows, and the ownership-total
format error when rows exist and the total deviates from 100 by more
than 0.5. -/
def cap_table_post (rows : List (String × ℚ × ℚ)) :
    Option ℚ × List String × List String :=
  let totalPct := (rows.map (fun r => r.2.1)).sum
  let ownershipTotal : Option ℚ := if rows.isEmpty then none else some totalPct
  let missing : List String :=
    if rows.isEmpty then ["shareholder", "ownership_percent", "shares"] else []
  let formatErrors : List String :=
    if !rows.isEmpty && decide ((1 : ℚ) / 2 < |totalPct - 100|) then
      ["ownership total not equal to 100%"]
    else []
  (ownershipTotal, missing, formatErrors)

/-- Does the remaining text start with the two literal characters that the
double-escaped `\\b` of `_has_placeholder` (classify.py line 62) demands:
a backslash followed by `b` (case-insensitively, for re.IGNORECASE)? -/
def startsWithWordB (cs : List Char) : Bool :=
  match cs with
  | c1 :: c2 :: _ => c1 == '\\' && c2.toLower == 'b'
  | _ => false

/-- Remainders after consuming zero or more further dashes. -/
def dashTails : List Char → List (List Char)
  | [] => [[]]
  | c :: r => if c = '-' then (c :: r) :: dashTails r else [c :: r]

/-- Remainders of the `--+` alternative: at least two dashes consumed. -/
def dashRemainders (cs : List Char) : List (List Char) :=
  match cs with
  | '-' :: '-' :: rest => dashTails rest
  | _ => []

/-- Remainders of the `\\?\\?\\?` alternative of the double-escaped
pattern: up to three optional literal backslashes consumed (so the
alternative can also match the empty string). -/
def bsRemainders (cs : List Char) : List (List Char) :=
  cs :: (match cs with
    | '\\' :: r1 =>
      r1 :: (match r1 with
        | '\\' :: r2 =>
          r2 :: (match r2 with
            | '\\' :: r3 => [r3]
            | _ => [])
        | _ => [])
    | _ => [])

/-- All remainders the alternation `(tbd|n/?a|--+|\\?\\?\\?)` can leave
after matching at the front of `cs` (case-insensitively). -/
def altRemainders (cs : List Char) : List (List Char) :=
  (match cs with
   | a :: b :: c :: r =>
     if a.toLower == 't' && b.toLower == 'b' && c.toLower == 'd' then [r] else []
   | _ => []) ++
  (match cs with
   | a :: b :: r => if a.toLower == 'n' && b.toLower == 'a' then [r] else []
   | _ => []) ++
  (match cs with
   | a :: b :: c :: r =>
     if a.toLower == 'n' && b == '/' && c.toLower == 'a' then [r] else []
   | _ => []) ++
  dashRemainders cs ++ bsRemainders cs

/-- Whether the double-escaped placeholder pattern
`\\b(tbd|n/?a|--+|\\?\\?\\?)\\b` matches at the start of `cs`: a literal
backslash and `b`, one alternative, then a literal backslash and `b`. -/
def matchPlaceholderAt (cs : List Char) : Bool :=
  match cs with
  | c1 :: c2 :: rest =>
    c1 == '\\' && c2.toLower == 'b' && (altRemainders rest).any startsWithWordB
  | _ => false

/-- Embedding of `_has_placeholder` (classify.py lines 61-62) as the
source's double-escaped pattern actually behaves: search for a match of
`\\b(tbd|n/?a|--+|\\?\\?\\?)\\b` at any position. -/
def has_placeholder_core : List Char → Bool
  | [] => false
  | c :: rest => matchPlaceholderAt (c :: rest) || has_placeholder_core rest

/-- Maximal runs of ASCII letters, Python `re.findall(r"[A-Za-z]+", text)`
(classify.py line 76); `acc` carries the current run, reversed. -/
def alphaRunsAux : List Char → List Char → List (List Char)
  | [], acc => if acc.isEmpty then [] else [acc.reverse]
  | c :: rest, acc =>
    if c.isAlpha then alphaRunsAux rest (c :: acc)
    else if acc.isEmpty then alphaRunsAux rest []
    else acc.reverse :: alphaRunsAux rest []

/-- The placeholder scan of `_extract_income_statement` (classify.py lines
75-79): the alphabetic tokens of the text are tested one by one and the
first hit appends the single error "placeholder detected". -/
def income_placeholder_errors (text : String) : List String :=
  if (alphaRunsAux text.data []).any (fun t => has_placeholder_core t) then
    ["placeholder detected"]
  else []

/-! ## Helper lemmas -/

theorem detect_missing_terms_nil_or_singleton (available : Bool)
    (ct : String → Bool) :
    detect_missing_financial_terms available ct = [] ∨
    ∃ s, detect_missing_financial_terms available ct = [s] := by
  unfold detect_missing_financial_terms
  cases available with
  | false => simp
  | true =>
    by_cases h : financialTerms.length - 2 ≤
        (financialTerms.filter fun t => !ct t).length
    · refine Or.inr ⟨"Missing key financial terms: " ++
        String.intercalate ", " (financialTerms.filter fun t => !ct t), ?_⟩
      simp [h]
    · exact Or.inl (by simp [h])

theorem round1_intCast (n : ℤ) : round1 ((n : ℚ)) = (n : ℚ) := by
  have h10 : ((n : ℚ)) * 10 = ((n * 10 : ℤ) : ℚ) := by push_cast; ring
  simp only [round1, h10, Int.floor_intCast, sub_self]
  norm_num

theorem round1_quarter (k : ℕ) :
    round1 (min 1 ((k : ℚ) / 4) * 100) = 100 * min 1 ((k : ℚ) / 4) := by
  rcases le_or_lt ((k : ℚ) / 4) 1 with h | h
  · rw [min_eq_right h]
    have h25 : (k : ℚ) / 4 * 100 = ((25 * k : ℤ) : ℚ) := by push_cast; ring
    rw [h25, round1_intCast]
    push_cast; ring
  · rw [min_eq_left (le_of_lt h)]
    have h100 : (1 : ℚ) * 100 = ((100 : ℤ) : ℚ) := by norm_num
    rw [h100, round1_intCast]
    norm_num

/-! ## C9: invalid archive short-circuit -/

/-- C9: for an input that is not a well-formed ZIP archive, score_zip
returns a structured result with status "BAD", total_score 0 and the single
issue "Not a valid zip archive", with every other issue collection empty
and the sparse/missing-terms checks not performed. -/
theorem score_zip_invalid_zip_result
    (fileNames mr fi ni cp sp : List String) (available : Bool)
    (ct : String → Bool) (r : GateScoreResult)
    (hr : r = score_zip false fileNames mr fi ni cp sp available ct) :
    r.status = "BAD" ∧ r.totalScore = 0 ∧
    r.issues = ["Not a valid zip archive"] ∧ r.missingRequired = [] ∧
    r.corruptPdfs = [] ∧ r.inconsistentNaming = [] ∧ r.folderIssues = [] ∧
    r.files = [] ∧ r.sparsePdfs = none ∧ r.missingTerms = none := by
  subst hr
  simp [score_zip]

theorem score_zip_invalid_zip_result_witness :
    (score_zip false ["a.pdf"] [] [] [] [] [] true (fun _ => true)).status =
      "BAD" ∧
    (score_zip false ["a.pdf"] [] [] [] [] [] true
        (fun _ => true)).totalScore = 0 ∧
    (score_zip false ["a.pdf"] [] [] [] [] [] true (fun _ => true)).issues =
      ["Not a valid zip archive"] ∧
    (score_zip false ["a.pdf"] [] [] [] [] [] true
        (fun _ => true)).missingRequired = [] ∧
    (score_zip false ["a.pdf"] [] [] [] [] [] true
        (fun _ => true)).corruptPdfs = [] ∧
    (score_zip false ["a.pdf"] [] [] [] [] [] true
        (fun _ => true)).inconsistentNaming = [] ∧
    (score_zip false ["a.pdf"] [] [] [] [] [] true
        (fun _ => true)).folderIssues = [] ∧
    (score_zip false ["a.pdf"] [] [] [] [] [] true (fun _ => true)).files =
      [] ∧
    (score_zip false ["a.pdf"] [] [] [] [] [] true
        (fun _ => true)).sparsePdfs = none ∧
    (score_zip false ["a.pdf"] [] [] [] [] [] true
        (fun _ => true)).missingTerms = none :=
  score_zip_invalid_zip_result ["a.pdf"] [] [] [] [] [] true (fun _ => true)
    _ rfl

/-! ## C1: scoring formula, bounds and status rule -/

/-- C1: for a well-formed ZIP package the total score is
`max 0 (100 - (20·|missing_required| + 10·|folder_issues| +
5·|naming_issues| + 25·|corrupt_pdfs| + 10·|sparse_pdfs| + 10 if the
missing-terms issue is present))`, the sum being order-independent; the
score is always in [0, 100]; and status is "GOOD" iff the score is at
least 70 and missing_required and corrupt_pdfs are both empty, otherwise
"BAD". -/
theorem score_zip_scoring_spec
    (fileNames mr fi ni cp sp : List String) (available : Bool)
    (ct : String → Bool) (r : GateScoreResult)
    (hr : r = score_zip true fileNames mr fi ni cp sp available ct) :
    r.totalScore =
      max 0 (100 -
        ([(20 : ℤ) * mr.length, 10 * fi.length, 5 * ni.length,
          25 * cp.length, 10 * sp.length,
          if detect_missing_financial_terms available ct = [] then 0
          else 10].sum)) ∧
    (∀ l : List ℤ,
      ([(20 : ℤ) * mr.length, 10 * fi.length, 5 * ni.length, 25 * cp.length,
        10 * sp.length,
        if detect_missing_financial_terms available ct = [] then 0
        else 10].Perm l) →
      r.totalScore = max 0 (100 - l.sum)) ∧
    0 ≤ r.totalScore ∧ r.totalScore ≤ 100 ∧
    (r.status = "GOOD" ↔ (70 ≤ r.totalScore ∧ mr = [] ∧ cp = [])) ∧
    (r.status = "GOOD" ∨ r.status = "BAD") := by
  subst hr
  have hmt := detect_missing_terms_nil_or_singleton available ct
  have hlen : ((detect_missing_financial_terms available ct).length : ℤ) * 10 =
      if detect_missing_financial_terms available ct = [] then 0 else 10 := by
    rcases hmt with h | ⟨s, h⟩ <;> simp [h]
  have hsum :
      (mr.length : ℤ) * 20 + (fi.length : ℤ) * 10 + (ni.length : ℤ) * 5 +
        (cp.length : ℤ) * 25 + (sp.length : ℤ) * 10 +
        ((detect_missing_financial_terms available ct).length : ℤ) * 10 =
      [(20 : ℤ) * mr.length, 10 * fi.length, 5 * ni.length, 25 * cp.length,
        10 * sp.length,
        if detect_missing_financial_terms available ct = [] then 0
        else 10].sum := by
    rw [hlen]; simp; ring
  have hpen : (0 : ℤ) ≤
      [(20 : ℤ) * mr.length, 10 * fi.length, 5 * ni.length, 25 * cp.length,
        10 * sp.length,
        if detect_missing_financial_terms available ct = [] then 0
        else 10].sum := by
    have h1 : (0 : ℤ) ≤ (20 : ℤ) * mr.length := by positivity
    have h2 : (0 : ℤ) ≤ (10 : ℤ) * fi.length := by positivity
    have h3 : (0 : ℤ) ≤ (5 : ℤ) * ni.length := by positivity
    have h4 : (0 : ℤ) ≤ (25 : ℤ) * cp.length := by positivity
    have h5 : (0 : ℤ) ≤ (10 : ℤ) * sp.length := by positivity
    have h6 : (0 : ℤ) ≤
        (if detect_missing_financial_terms available ct = [] then (0 : ℤ)
         else 10) := by split <;> norm_num
    simp only [List.sum_cons, List.sum_nil, add_zero]
    linarith
  refine ⟨?_, ?_, ?_, ?_, ?_, ?_⟩
  · simp only [score_zip, Bool.not_true, Bool.false_eq_true, if_false, hsum]
  · intro l hperm
    simp only [score_zip, Bool.not_true, Bool.false_eq_true, if_false, hsum,
      hperm.sum_eq]
  · simp only [score_zip, Bool.not_true, Bool.false_eq_true, if_false]
    exact le_max_left _ _
  · simp only [score_zip, Bool.not_true, Bool.false_eq_true, if_false, hsum]
    exact max_le (by norm_num) (by linarith)
  · simp only [score_zip, Bool.not_true, Bool.false_eq_true, if_false]
    split
    · rename_i hc
      simp only [true_iff]
      exact hc
    · rename_i hc
      constructor
      · intro hbad; exact absurd hbad (by decide)
      · intro hcond; exact absurd hcond hc
  · simp only [score_zip, Bool.not_true, Bool.false_eq_true, if_false]
    split
    · exact Or.inl rfl
    · exact Or.inr rfl

theorem score_zip_scoring_spec_witness :
    (score_zip true ["income_statement.pdf"] [] [] [] [] [] false
        (fun _ => false)).totalScore =
      max 0 (100 -
        ([(20 : ℤ) * ([] : List String).length,
          10 * ([] : List String).length, 5 * ([] : List String).length,
          25 * ([] : List String).length, 10 * ([] : List String).length,
          if detect_missing_financial_terms false (fun _ => false) = [] then 0
          else 10].sum)) ∧
    (score_zip true ["income_statement.pdf"] [] [] [] [] [] false
        (fun _ => false)).status = "GOOD" :=
  ⟨(score_zip_scoring_spec ["income_statement.pdf"] [] [] [] [] [] false
      (fun _ => false) _ rfl).1,
   ((score_zip_scoring_spec ["income_statement.pdf"] [] [] [] [] [] false
      (fun _ => false) _ rfl).2.2.2.2.1).mpr (by
        refine ⟨?_, rfl, rfl⟩
        decide)⟩

/-! ## C3: the validator mutates the classifier's flag lists in place -/

/-- C3 (refuting evidence): running the validator over one document whose
text has no date pattern changes the classifier-owned `format_errors` list
reachable through the classification record from `[]` to
`["missing dates"]` — the append at schema_validator.py line 73 goes
through the shared reference instead of a copy, so the classifier's
record does not stay intact. -/
theorem validator_mutates_classifier_flag_lists :
    storeGet
      (validate_documents_flag_store oNoDates
        [("a.pdf", "abcdefghijklmnopqrstuvwxyz")]
        [("a.pdf", ⟨0, 1, 2⟩)] [[], [], []]) 2 = ["missing dates"] ∧
    storeGet [([] : List String), [], []] 2 = [] := by
  constructor
  · decide
  · decide

/-! ## Classifier fold lemmas -/

theorem classifyFold_cons (g : String × List String → ℚ × List String)
    (a : String × List String) (T : List (String × List String))
    (acc : String × ℚ × List String) :
    classifyFold g (a :: T) acc =
      classifyFold g T (if acc.2.1 < (g a).1 then (a.1, g a) else acc) := rfl

theorem maxFold_cons (g : String × List String → ℚ × List String)
    (a : String × List String) (T : List (String × List String)) (q : ℚ) :
    maxFold g (a :: T) q = maxFold g T (max q (g a).1) := rfl

theorem classifyFold_snd (g : String × List String → ℚ × List String) :
    ∀ (L : List (String × List String)) (acc : String × ℚ × List String),
      (classifyFold g L acc).2.1 = maxFold g L acc.2.1 := by
  intro L
  induction L with
  | nil => intro acc; rfl
  | cons a T ih =>
    intro acc
    rw [classifyFold_cons, maxFold_cons, ih]
    congr 1
    by_cases h : acc.2.1 < (g a).1
    · rw [if_pos h, max_eq_right (le_of_lt h)]
    · rw [if_neg h, max_eq_left (not_lt.mp h)]

theorem maxFold_init_le (g : String × List String → ℚ × List String) :
    ∀ (L : List (String × List String)) (q : ℚ), q ≤ maxFold g L q := by
  intro L
  induction L with
  | nil => intro q; exact le_refl q
  | cons a T ih =>
    intro q
    rw [maxFold_cons]
    exact le_trans (le_max_left _ _) (ih _)

theorem maxFold_le_of_mem (g : String × List String → ℚ × List String) :
    ∀ (L : List (String × List String)) (q : ℚ),
      ∀ lp ∈ L, (g lp).1 ≤ maxFold g L q := by
  intro L
  induction L with
  | nil => intro q lp h; exact absurd h (List.not_mem_nil lp)
  | cons a T ih =>
    intro q lp h
    rw [maxFold_cons]
    rcases List.mem_cons.mp h with h | h
    · subst h
      exact le_trans (le_max_right _ _) (maxFold_init_le g T _)
    · exact ih _ lp h

theorem maxFold_mono (g g' : String × List String → ℚ × List String)
    (hg : ∀ lp, (g lp).1 ≤ (g' lp).1) :
    ∀ (L : List (String × List String)) (q q' : ℚ), q ≤ q' →
      maxFold g L q ≤ maxFold g' L q' := by
  intro L
  induction L with
  | nil => intro q q' h; exact h
  | cons a T ih =>
    intro q q' h
    rw [maxFold_cons, maxFold_cons]
    exact ih _ _ (max_le_max h (hg a))

theorem maxFold_le_one (g : String × List String → ℚ × List String)
    (hg : ∀ lp, (g lp).1 ≤ 1) :
    ∀ (L : List (String × List String)) (q : ℚ), q ≤ 1 →
      maxFold g L q ≤ 1 := by
  intro L
  induction L with
  | nil => intro q h; exact h
  | cons a T ih =>
    intro q h
    rw [maxFold_cons]
    exact ih _ (max_le h (hg a))

theorem maxFold_attained (g : String × List String → ℚ × List String) :
    ∀ (L : List (String × List String)) (q : ℚ),
      maxFold g L q = q ∨ ∃ lp ∈ L, maxFold g L q = (g lp).1 := by
  intro L
  induction L with
  | nil => intro q; exact Or.inl rfl
  | cons a T ih =>
    intro q
    rw [maxFold_cons]
    rcases le_total (g a).1 q with hle | hle
    · rw [max_eq_left hle]
      rcases ih q with h | ⟨lp, hmem, h⟩
      · exact Or.inl h
      · exact Or.inr ⟨lp, List.mem_cons_of_mem a hmem, h⟩
    · rw [max_eq_right hle]
      rcases ih (g a).1 with h | ⟨lp, hmem, h⟩
      · exact Or.inr ⟨a, List.mem_cons_self a T, h⟩
      · exact Or.inr ⟨lp, List.mem_cons_of_mem a hmem, h⟩

theorem maxFold_form (g : String × List String → ℚ × List String)
    (hg : ∀ lp, ∃ k : ℕ, (g lp).1 = min 1 ((k : ℚ) / 4)) :
    ∀ (L : List (String × List String)) (q : ℚ),
      (∃ k : ℕ, q = min 1 ((k : ℚ) / 4)) →
      ∃ k : ℕ, maxFold g L q = min 1 ((k : ℚ) / 4) := by
  intro L
  induction L with
  | nil => intro q h; exact h
  | cons a T ih =>
    intro q hq
    rw [maxFold_cons]
    refine ih _ ?_
    obtain ⟨k, hk⟩ := hq
    obtain ⟨k', hk'⟩ := hg a
    rcases le_total k k' with hle | hle
    · refine ⟨k', ?_⟩
      rw [hk, hk', max_eq_right]
      exact min_le_min (le_refl 1) (by
        apply div_le_div_of_nonneg_right ?_ (by norm_num)
        exact_mod_cast hle)
    · refine ⟨k, ?_⟩
      rw [hk, hk', max_eq_left]
      exact min_le_min (le_refl 1) (by
        apply div_le_div_of_nonneg_right ?_ (by norm_num)
        exact_mod_cast hle)

theorem classifyFold_fst (g : String × List String → ℚ × List String) :
    ∀ (L : List (String × List String)) (l0 : String) (q0 : ℚ)
      (rs : List String),
      (maxFold g L q0 = q0 ∧ (classifyFold g L (l0, q0, rs)).1 = l0) ∨
      (q0 < maxFold g L q0 ∧
        ∃ lp, L.find? (fun lp => decide ((g lp).1 = maxFold g L q0)) =
            some lp ∧
          (classifyFold g L (l0, q0, rs)).1 = lp.1) := by
  intro L
  induction L with
  | nil => intro l0 q0 rs; exact Or.inl ⟨rfl, rfl⟩
  | cons a T ih =>
    intro l0 q0 rs
    rw [classifyFold_cons, maxFold_cons]
    by_cases h : q0 < (g a).1
    · have hcond : ((l0, q0, rs) : String × ℚ × List String).2.1 < (g a).1 := h
      rw [if_pos hcond, max_eq_right (le_of_lt h)]
      rcases ih a.1 (g a).1 (g a).2 with ⟨hb, hfst⟩ | ⟨hlt, lp, hfind, hfst⟩
      · refine Or.inr ⟨by rw [hb]; exact h, a, ?_, ?_⟩
        · exact List.find?_cons_of_pos _ (by rw [hb]; simp)
        · exact hfst
      · refine Or.inr ⟨lt_trans h hlt, lp, ?_, ?_⟩
        · rw [List.find?_cons_of_neg _ (by
            simp only [decide_eq_true_eq]
            exact ne_of_lt hlt)]
          exact hfind
        · exact hfst
    · have hcond : ¬ ((l0, q0, rs) : String × ℚ × List String).2.1 < (g a).1 := h
      rw [if_neg hcond, max_eq_left (not_lt.mp h)]
      rcases ih l0 q0 rs with ⟨hb, hfst⟩ | ⟨hlt, lp, hfind, hfst⟩
      · exact Or.inl ⟨hb, hfst⟩
      · refine Or.inr ⟨hlt, lp, ?_, hfst⟩
        rw [List.find?_cons_of_neg _ (by
          simp only [decide_eq_true_eq]
          exact ne_of_lt (lt_of_le_of_lt (not_lt.mp h) hlt))]
        exact hfind

theorem score_label_fst (m : Matcher) (ps : List String) (text fn : String) :
    (score_label m ps text fn).1 =
      min 1 ((hitCount m ps text fn : ℚ) / 4) := by
  suffices h : ∀ (ps : List String) (a : ℕ) (l : List String),
      (ps.foldl
        (fun acc p =>
          let acc := if m p fn then
            (acc.1 + 1, acc.2 ++ ["Filename matches " ++ p]) else acc
          if m p text then (acc.1 + 1, acc.2 ++ ["Text matches " ++ p])
          else acc)
        (a, l)).1 =
      ps.foldl (fun n p =>
        n + (if m p fn then 1 else 0) + (if m p text then 1 else 0)) a by
    simp only [score_label, hitCount]
    rw [h ps 0 []]
  intro ps
  induction ps with
  | nil => intro a l; rfl
  | cons p t ih =>
    intro a l
    simp only [List.foldl_cons]
    by_cases h1 : m p fn <;> by_cases h2 : m p text <;> simp [h1, h2, ih]

theorem hitCount_mono (m m' : Matcher)
    (h : ∀ p s, m p s = true → m' p s = true) (ps : List String)
    (text fn : String) :
    hitCount m ps text fn ≤ hitCount m' ps text fn := by
  suffices hs : ∀ (ps : List String) (a a' : ℕ), a ≤ a' →
      ps.foldl (fun n p =>
        n + (if m p fn then 1 else 0) + (if m p text then 1 else 0)) a ≤
      ps.foldl (fun n p =>
        n + (if m' p fn then 1 else 0) + (if m' p text then 1 else 0)) a' by
    exact hs ps 0 0 (le_refl 0)
  intro ps
  induction ps with
  | nil => intro a a' ha; exact ha
  | cons p t ih =>
    intro a a' ha
    simp only [List.foldl_cons]
    apply ih
    have h1 : (if m p fn then (1 : ℕ) else 0) ≤ (if m' p fn then 1 else 0) := by
      by_cases hc : m p fn
      · rw [if_pos hc, if_pos (h p fn hc)]
      · rw [if_neg hc]; exact Nat.zero_le _
    have h2 : (if m p text then (1 : ℕ) else 0) ≤
        (if m' p text then 1 else 0) := by
      by_cases hc : m p text
      · rw [if_pos hc, if_pos (h p text hc)]
      · rw [if_neg hc]; exact Nat.zero_le _
    omega

theorem classify_confidence_eq (m : Matcher) (path text : String) :
    (classify_document m path text).confidence =
      100 * bestScore m text (pathName path) := by
  obtain ⟨k, hk⟩ := maxFold_form
    (fun lp => score_label m lp.2 text (pathName path))
    (fun lp => ⟨hitCount m lp.2 text (pathName path),
      score_label_fst m lp.2 text (pathName path)⟩)
    labelPatterns 0 ⟨0, by norm_num⟩
  have hc : (classify_document m path text).confidence =
      round1 (bestScore m text (pathName path) * 100) := by
    show round1 ((classifyFold
      (fun lp => score_label m lp.2 text (pathName path)) labelPatterns
      ("unknown", (0 : ℚ), ["No patterns matched"])).2.1 * 100) = _
    rw [classifyFold_snd]
    rfl
  rw [hc, show bestScore m text (pathName path) = min 1 ((k : ℚ) / 4) from hk]
  exact round1_quarter k

theorem classify_label_eq (m : Matcher) (path text : String) :
    (classify_document m path text).label =
      firstBestLabel m text (pathName path) := by
  have hlab : (classify_document m path text).label =
      (classifyFold (fun lp => score_label m lp.2 text (pathName path))
        labelPatterns ("unknown", (0 : ℚ), ["No patterns matched"])).1 := rfl
  rcases classifyFold_fst (fun lp => score_label m lp.2 text (pathName path))
      labelPatterns "unknown" 0 ["No patterns matched"] with
    ⟨hb, hfst⟩ | ⟨hlt, lp, hfind, hfst⟩
  · rw [hlab, hfst]
    simp only [firstBestLabel]
    rw [if_pos]
    exact hb
  · rw [hlab, hfst]
    simp only [firstBestLabel]
    rw [if_neg (by
      intro h0
      rw [show bestScore m text (pathName path) =
        maxFold (fun lp => score_label m lp.2 text (pathName path))
          labelPatterns 0 from rfl] at h0
      rw [h0] at hlt
      exact absurd hlt (lt_irrefl 0))]
    rw [show bestScore m text (pathName path) =
      maxFold (fun lp => score_label m lp.2 text (pathName path))
        labelPatterns 0 from rfl]
    rw [hfind]

/-! ## C4: classifier scoring, selection and unknown fallback -/

/-- C4: classify_document scores each archetype as
`min(1.0, 0.25·hits)` counting filename and body hits independently,
reports the best score times 100 (the reported `round(score*100, 1)`
equals it exactly on these quarter values), picks the first archetype of
the table attaining the strictly highest score, and returns "unknown"
with confidence 0.0 when no archetype scores above 0. -/
theorem classify_document_spec (m : Matcher) (path text : String)
    (r : ClassificationRecord) (hr : r = classify_document m path text) :
    (∀ lp ∈ labelPatterns,
      (score_label m lp.2 text (pathName path)).1 =
        min 1 ((hitCount m lp.2 text (pathName path) : ℚ) / 4)) ∧
    r.confidence = 100 * bestScore m text (pathName path) ∧
    (∀ lp ∈ labelPatterns,
      (score_label m lp.2 text (pathName path)).1 ≤
        bestScore m text (pathName path)) ∧
    (bestScore m text (pathName path) = 0 ∨
      ∃ lp ∈ labelPatterns,
        (score_label m lp.2 text (pathName path)).1 =
          bestScore m text (pathName path)) ∧
    (bestScore m text (pathName path) = 0 →
      r.label = "unknown" ∧ r.confidence = 0) ∧
    r.label = firstBestLabel m text (pathName path) := by
  subst hr
  refine ⟨fun lp _ => score_label_fst m lp.2 text (pathName path),
    classify_confidence_eq m path text,
    fun lp h => maxFold_le_of_mem _ labelPatterns 0 lp h, ?_, ?_,
    classify_label_eq m path text⟩
  · rcases maxFold_attained
        (fun lp => score_label m lp.2 text (pathName path)) labelPatterns 0
      with h | ⟨lp, hmem, h⟩
    · exact Or.inl h
    · exact Or.inr ⟨lp, hmem, h.symm⟩
  · intro h0
    constructor
    · rw [classify_label_eq]
      simp only [firstBestLabel]
      rw [if_pos h0]
    · rw [classify_confidence_eq, h0, mul_zero]

theorem classify_document_spec_witness :
    (classify_document (fun _ _ => false) "docs/report.pdf" "text").label =
      firstBestLabel (fun _ _ => false) "text" (pathName "docs/report.pdf") :=
  (classify_document_spec (fun _ _ => false) "docs/report.pdf" "text" _
    rfl).2.2.2.2.2

/-! ## C10: confidence is monotone in matches and capped at 100 -/

/-- C10: enlarging the set of matching (pattern, haystack) pairs — in
particular adding one more matching pattern occurrence to the winning
archetype — never decreases the reported winning confidence, and the
confidence is capped at 100. -/
theorem classifier_confidence_monotone (m m' : Matcher)
    (h : ∀ p s, m p s = true → m' p s = true) (path text : String) :
    (classify_document m path text).confidence ≤
      (classify_document m' path text).confidence ∧
    (classify_document m path text).confidence ≤ 100 ∧
    (classify_document m' path text).confidence ≤ 100 := by
  have hbmono : bestScore m text (pathName path) ≤
      bestScore m' text (pathName path) := by
    apply maxFold_mono _ _ _ labelPatterns 0 0 (le_refl 0)
    intro lp
    rw [score_label_fst, score_label_fst]
    refine min_le_min (le_refl 1) ?_
    apply div_le_div_of_nonneg_right ?_ (by norm_num)
    exact_mod_cast hitCount_mono m m' h lp.2 text (pathName path)
  have hcap : ∀ mm : Matcher, bestScore mm text (pathName path) ≤ 1 := by
    intro mm
    apply maxFold_le_one _ ?_ labelPatterns 0 (by norm_num)
    intro lp
    rw [score_label_fst]
    exact min_le_left _ _
  rw [classify_confidence_eq, classify_confidence_eq]
  have h1 := hcap m
  have h2 := hcap m'
  exact ⟨by linarith, by linarith, by linarith⟩

theorem classifier_confidence_monotone_witness :
    (classify_document (fun _ _ => false) "a.pdf" "t").confidence ≤
      (classify_document (fun _ _ => true) "a.pdf" "t").confidence ∧
    (classify_document (fun _ _ => false) "a.pdf" "t").confidence ≤ 100 ∧
    (classify_document (fun _ _ => true) "a.pdf" "t").confidence ≤ 100 :=
  classifier_confidence_monotone (fun _ _ => false) (fun _ _ => true)
    (fun _ _ _ => rfl) "a.pdf" "t"

/-! ## C5: the balance-sheet totals are never extracted -/

theorem brokenNumCapture_no_digit (cs : List Char)
    (h : brokenNumCapture cs = true) : ∀ c ∈ cs, c.isDigit = false := by
  intro c hc
  cases cs with
  | nil => exact absurd hc (List.not_mem_nil c)
  | cons c0 rest =>
    simp only [brokenNumCapture] at h
    have hfour : ∀ x : Char,
        (x == '\\' || x == 'd' || x == ',' || x == '.') = true →
        x.isDigit = false := by
      intro x hx
      simp only [Bool.or_eq_true, beq_iff_eq] at hx
      rcases hx with ((hx | hx) | hx) | hx <;> (rw [hx]; decide)
    by_cases h0 : c0 == '-'
    · rw [if_pos h0] at h
      simp only [Bool.and_eq_true, List.all_eq_true] at h
      rcases List.mem_cons.mp hc with hc | hc
      · rw [hc, eq_of_beq h0]; decide
      · exact hfour c (h.2 c hc)
    · rw [if_neg h0] at h
      simp only [Bool.and_eq_true, List.all_eq_true] at h
      exact hfour c (h.2 c hc)

theorem firstParsed_none (pyFloat : List Char → Option ℚ)
    (hf : ∀ cs, (pyFloat cs).isSome = true → ∃ c ∈ cs, c.isDigit = true)
    (caps : List (List Char))
    (hc : ∀ c ∈ caps, brokenNumCapture c = true) :
    firstParsed pyFloat caps = none := by
  induction caps with
  | nil => rfl
  | cons c t ih =>
    have h1 : pyFloat (c.filter (fun ch => !(ch == ','))) = none := by
      by_contra hne
      obtain ⟨ch, hmem, hd⟩ := hf _ (Option.isSome_iff_ne_none.mpr hne)
      have hdig := brokenNumCapture_no_digit c
        (hc c (List.mem_cons_self c t)) ch (List.mem_filter.mp hmem).1
      rw [hd] at hdig
      exact absurd hdig (by decide)
    simp only [firstParsed, h1]
    exact ih (fun c h => hc c (List.mem_cons_of_mem _ h))

/-- C5 (refuting evidence): the double-escaped patterns for
"total assets" and "total liabilities + equity" of
`_extract_balance_sheet` can only capture strings over the literal
characters `-`, backslash, `d`, comma and dot, no capture ever parses as
a Python float (every float literal needs a digit), so `_extract_number`
returns None for both totals and the non-balancing branch of classify.py
line 102 is unreachable; the comparison the branch would make agrees with
the claim's |assets − liabilities+equity| > 1 condition. -/
theorem balance_sheet_totals_never_extracted
    (pyFloat : List Char → Option ℚ)
    (hf : ∀ cs, (pyFloat cs).isSome = true → ∃ c ∈ cs, c.isDigit = true)
    (taCaps tleCaps : List (List Char))
    (hta : ∀ c ∈ taCaps, brokenNumCapture c = true)
    (htle : ∀ c ∈ tleCaps, brokenNumCapture c = true) :
    firstParsed pyFloat taCaps = none ∧
    non_balancing_errors (firstParsed pyFloat taCaps)
      (firstParsed pyFloat tleCaps) = [] ∧
    (∀ a l : ℚ,
      non_balancing_errors (some a) (some l) =
          ["non_balancing: assets != liabilities + equity"] ↔
        1 < |a - l|) := by
  have h1 := firstParsed_none pyFloat hf taCaps hta
  have h2 := firstParsed_none pyFloat hf tleCaps htle
  refine ⟨h1, by rw [h1, h2]; rfl, ?_⟩
  intro a l
  by_cases h : 1 < |a - l|
  · simp [non_balancing_errors, h]
  · simp [non_balancing_errors, h]

theorem balance_sheet_totals_never_extracted_witness :
    firstParsed (fun _ => none) [['d', '.']] = none ∧
    non_balancing_errors (firstParsed (fun _ => none) [['d', '.']])
      (firstParsed (fun _ => none) [['-', '\\']]) = [] ∧
    (∀ a l : ℚ,
      non_balancing_errors (some a) (some l) =
          ["non_balancing: assets != liabilities + equity"] ↔
        1 < |a - l|) :=
  balance_sheet_totals_never_extracted (fun _ => none)
    (fun cs h => absurd h (by simp)) [['d', '.']] [['-', '\\']]
    (by decide) (by decide)

/-! ## C6: ownership-total check fires only when rows parsed -/

/-- C6 evidence: the ownership-total format error is produced exactly when
at least one row parsed and the percentage total deviates from 100 by more
than 0.5; with zero parsed rows — which is all the double-escaped row
pattern of `_extract_cap_table` ever yields on backslash-free text — no
error is produced even though the (empty) total deviates from 100 by
more than 0.5. -/
theorem cap_table_ownership_total_check (rows : List (String × ℚ × ℚ)) :
    ((cap_table_post rows).2.2 = ["ownership total not equal to 100%"] ↔
      (rows ≠ [] ∧
        1 / 2 < |(rows.map (fun r => r.2.1)).sum - 100|)) ∧
    ((cap_table_post rows).2.2 = [] ↔
      (rows = [] ∨ |(rows.map (fun r => r.2.1)).sum - 100| ≤ 1 / 2)) ∧
    ((cap_table_post ([] : List (String × ℚ × ℚ))).2.2 = [] ∧
      (1 : ℚ) / 2 <
        |((([] : List (String × ℚ × ℚ)).map (fun r => r.2.1)).sum - 100)|) := by
  refine ⟨?_, ?_, ?_, ?_⟩
  · by_cases he : rows = []
    · subst he
      simp [cap_table_post]
    · by_cases hd : (1 : ℚ) / 2 < |(rows.map (fun r => r.2.1)).sum - 100|
      · simp [cap_table_post, he, hd, List.isEmpty_iff]
      · simp [cap_table_post, he, hd, List.isEmpty_iff]
  · by_cases he : rows = []
    · subst he
      simp [cap_table_post]
    · by_cases hd : (1 : ℚ) / 2 < |(rows.map (fun r => r.2.1)).sum - 100|
      · simp [cap_table_post, he, hd, List.isEmpty_iff, not_lt]
      · simp [cap_table_post, he, hd, List.isEmpty_iff, not_lt.mp hd]
  · simp [cap_table_post]
  · simp
    norm_num

theorem cap_table_ownership_total_check_witness :
    ((cap_table_post [("Alice", (95 : ℚ), 9500)]).2.2 =
        ["ownership total not equal to 100%"] ↔
      ([(("Alice", (95 : ℚ), 9500))] ≠ ([] : List (String × ℚ × ℚ)) ∧
        1 / 2 <
          |(([("Alice", (95 : ℚ), 9500)]).map (fun r => r.2.1)).sum - 100|)) :=
  (cap_table_ownership_total_check [("Alice", (95 : ℚ), 9500)]).1

/-! ## C7: placeholder detection cannot fire on placeholder tokens -/

theorem alphaRunsAux_all_alpha :
    ∀ (cs acc : List Char), (∀ c ∈ acc, c.isAlpha = true) →
      ∀ r ∈ alphaRunsAux cs acc, ∀ c ∈ r, c.isAlpha = true := by
  intro cs
  induction cs with
  | nil =>
    intro acc hacc r hr c hc
    simp only [alphaRunsAux] at hr
    by_cases he : acc.isEmpty
    · rw [if_pos he] at hr
      exact absurd hr (List.not_mem_nil r)
    · rw [if_neg he] at hr
      rcases List.mem_singleton.mp hr with h
      subst h
      exact hacc c (List.mem_reverse.mp hc)
  | cons c0 rest ih =>
    intro acc hacc r hr c hc
    simp only [alphaRunsAux] at hr
    by_cases ha : c0.isAlpha
    · rw [if_pos ha] at hr
      refine ih (c0 :: acc) ?_ r hr c hc
      intro x hx
      rcases List.mem_cons.mp hx with h | h
      · rw [h]; exact ha
      · exact hacc x h
    · rw [if_neg ha] at hr
      have hnil : ∀ x ∈ ([] : List Char), x.isAlpha = true := by
        intro x hx; exact absurd hx (List.not_mem_nil x)
      by_cases he : acc.isEmpty
      · rw [if_pos he] at hr
        exact ih [] hnil r hr c hc
      · rw [if_neg he] at hr
        rcases List.mem_cons.mp hr with h | h
        · subst h
          exact hacc c (List.mem_reverse.mp hc)
        · exact ih [] hnil r h c hc

theorem matchPlaceholderAt_head (cs : List Char)
    (h : matchPlaceholderAt cs = true) : ∃ rest, cs = '\\' :: rest := by
  match cs with
  | [] => exact absurd h (by decide)
  | [c] => exact absurd h (by simp [matchPlaceholderAt])
  | c1 :: c2 :: rest =>
    simp only [matchPlaceholderAt, Bool.and_eq_true] at h
    exact ⟨c2 :: rest, by rw [eq_of_beq h.1.1]⟩

theorem matchPlaceholderAt_head_eq (c : Char) (rest : List Char)
    (h : matchPlaceholderAt (c :: rest) = true) : c = '\\' := by
  obtain ⟨r, hr⟩ := matchPlaceholderAt_head _ h
  exact (List.cons.injEq _ _ _ _ ▸ hr).1

theorem has_placeholder_backslash :
    ∀ cs : List Char, has_placeholder_core cs = true → '\\' ∈ cs := by
  intro cs
  induction cs with
  | nil => intro h; exact absurd h (by decide)
  | cons c rest ih =>
    intro h
    simp only [has_placeholder_core, Bool.or_eq_true] at h
    rcases h with h1 | h1
    · rw [matchPlaceholderAt_head_eq c rest h1]
      exact List.mem_cons_self _ _
    · exact List.mem_cons_of_mem c (ih h1)

/-- C7 (refuting evidence): the income-statement placeholder scan can never
report an error for any text — the tokens it tests are alphabetic runs,
but a match of the double-escaped pattern of `_has_placeholder` requires a
literal backslash character; "cash tbd here" is likewise not flagged by
the whole-text balance-sheet check, while a text carrying literal
backslash-b markers is, which is what the pattern really demands. -/
theorem placeholder_detection_requires_backslash (text : String) :
    income_placeholder_errors text = [] ∧
    has_placeholder_core "cash tbd here".toList = false ∧
    has_placeholder_core "\\btbd\\b".toList = true := by
  refine ⟨?_, by decide, by decide⟩
  unfold income_placeholder_errors
  rw [if_neg]
  intro hany
  obtain ⟨r, hr, hp⟩ := List.any_eq_true.mp hany
  have hbs := has_placeholder_backslash r hp
  have halpha := alphaRunsAux_all_alpha text.data []
    (by intro x hx; exact absurd hx (List.not_mem_nil x)) r hr '\\' hbs
  exact absurd halpha (by decide)

/-! ## Period-detector lemmas for C8 -/

theorem mapOpt_eq_map (f : α → Option β) (g : α → β) :
    ∀ l : List α, (∀ a ∈ l, f a = some (g a)) →
      mapOpt f l = some (l.map g) := by
  intro l
  induction l with
  | nil => intro _; rfl
  | cons a t ih =>
    intro h
    have hb := h a (List.mem_cons_self a t)
    have ht := ih (fun x hx => h x (List.mem_cons_of_mem a hx))
    simp [mapOpt, hb, ht]

theorem ymToken_shape (p : String) (h : isYMToken p = true)
    (hl : p.data.length = 7) :
    ∃ c2 c3 m1 m2 : Char, p.data = ['2', '0', c2, c3, '-', m1, m2] ∧
      c2.isDigit = true ∧ c3.isDigit = true ∧ m1.isDigit = true ∧
      m2.isDigit = true := by
  match hp : p.data with
  | [] | [_] | [_, _] | [_, _, _] | [_, _, _, _] | [_, _, _, _, _]
  | [_, _, _, _, _, _] => rw [hp] at hl; simp at hl
  | a :: b :: c2 :: c3 :: d :: m1 :: m2 :: rest =>
    have hrest : rest = [] := by
      rw [hp] at hl
      simp at hl
      exact hl
    subst hrest
    rw [isYMToken, hp] at h
    simp only [Bool.and_eq_true, Bool.or_eq_true, beq_iff_eq] at h
    obtain ⟨⟨⟨⟨⟨ha, hb⟩, hc2⟩, hc3⟩, hd⟩, hm⟩ := h
    subst ha; subst hb; subst hd
    refine ⟨c2, c3, m1, m2, rfl, hc2, hc3, ?_, ?_⟩
    · rcases hm with ⟨⟨h1, -⟩, -⟩ | ⟨h1, -⟩
      · rw [h1]; decide
      · rw [h1]; decide
    · rcases hm with ⟨⟨-, h2⟩, -⟩ | ⟨-, (h2 | h2) | h2⟩
      · exact h2
      · rw [h2]; decide
      · rw [h2]; decide
      · rw [h2]; decide

theorem isDigit_ne_dash (c : Char) (h : c.isDigit = true) : ¬ c = '-' := by
  intro he
  rw [he] at h
  exact absurd h (by decide)

theorem splitDash_ym (c2 c3 m1 m2 : Char) (h2 : ¬ c2 = '-') (h3 : ¬ c3 = '-')
    (hm1 : ¬ m1 = '-') (hm2 : ¬ m2 = '-') :
    splitDash ['2', '0', c2, c3, '-', m1, m2] =
      [['2', '0', c2, c3], [m1, m2]] := by
  simp [splitDash, h2, h3, hm1, hm2]

theorem ym_parse (p : String) (h : isYMToken p = true)
    (hl : p.data.length = 7) :
    pyIntDigits ((pySplitDash p).headD "") = some (tokenYear p) ∧
    pyIntDigits ((pySplitDash p).getD 1 "") = some (tokenMonth p) := by
  obtain ⟨c2, c3, m1, m2, hp, hc2, hc3, hm1, hm2⟩ := ymToken_shape p h hl
  have hsplit : pySplitDash p =
      [String.mk ['2', '0', c2, c3], String.mk [m1, m2]] := by
    rw [pySplitDash, hp,
      splitDash_ym c2 c3 m1 m2 (isDigit_ne_dash c2 hc2)
        (isDigit_ne_dash c3 hc3) (isDigit_ne_dash m1 hm1)
        (isDigit_ne_dash m2 hm2)]
    rfl
  constructor
  · rw [hsplit]
    show pyIntDigits (String.mk ['2', '0', c2, c3]) = some (tokenYear p)
    rw [pyIntDigits]
    rw [if_pos (by
      show (!(String.mk ['2', '0', c2, c3]).data.isEmpty &&
        (String.mk ['2', '0', c2, c3]).data.all Char.isDigit) = true
      simp [hc2, hc3])]
    rw [tokenYear, hp]
    rfl
  · rw [hsplit]
    show pyIntDigits (String.mk [m1, m2]) = some (tokenMonth p)
    rw [pyIntDigits]
    rw [if_pos (by
      show (!(String.mk [m1, m2]).data.isEmpty &&
        (String.mk [m1, m2]).data.all Char.isDigit) = true
      simp [hm1, hm2])]
    rw [tokenMonth, hp]
    rfl

theorem mem_monthsList_iff (mo : ℕ) : mo ∈ monthsList ↔ 1 ≤ mo ∧ mo ≤ 12 := by
  constructor
  · intro h
    simp [monthsList] at h
    omega
  · intro h
    obtain ⟨h1, h2⟩ := h
    interval_cases mo <;> simp [monthsList]

theorem detect_missing_months_eval (periods : List String)
    (hwf : ∀ p ∈ periods, isYMToken p = true → p.data.length = 7) :
    ∃ l, detect_missing_months periods = some l ∧
      ∀ s, s ∈ l ↔
        ∃ y, (∃ p ∈ periods, isYMToken p = true ∧ tokenYear p = y) ∧
          ∃ mo, 1 ≤ mo ∧ mo ≤ 12 ∧
            (∀ p ∈ periods, isYMToken p = true → tokenMonth p ≠ mo) ∧
            s = formatYM y mo := by
  by_cases hye : (periods.filter (fun p => isYMToken p)).isEmpty
  · refine ⟨[], ?_, ?_⟩
    · rw [detect_missing_months, if_pos hye]
    · intro s
      simp only [List.not_mem_nil, false_iff]
      rintro ⟨y, ⟨p, hp, hym, -⟩, -⟩
      have : p ∈ periods.filter (fun p => isYMToken p) :=
        List.mem_filter.mpr ⟨hp, hym⟩
      rw [List.isEmpty_iff.mp hye] at this
      exact absurd this (List.not_mem_nil p)
  · have hmem7 : ∀ p ∈ periods.filter (fun p => isYMToken p),
        isYMToken p = true ∧ p.data.length = 7 := by
      intro p hp
      obtain ⟨hmem, hym⟩ := List.mem_filter.mp hp
      exact ⟨hym, hwf p hmem hym⟩
    have hyears := mapOpt_eq_map
      (fun p => pyIntDigits ((pySplitDash p).headD "")) tokenYear
      (periods.filter (fun p => isYMToken p))
      (fun p hp => (ym_parse p (hmem7 p hp).1 (hmem7 p hp).2).1)
    have hmonths := mapOpt_eq_map
      (fun p => pyIntDigits ((pySplitDash p).getD 1 "")) tokenMonth
      (periods.filter (fun p => isYMToken p))
      (fun p hp => (ym_parse p (hmem7 p hp).1 (hmem7 p hp).2).2)
    refine ⟨(List.insertionSort (· ≤ ·)
        ((periods.filter (fun p => isYMToken p)).map tokenYear).dedup).flatMap
        (fun y => (monthsList.filter (fun mo =>
          !(decide (mo ∈
            (periods.filter (fun p => isYMToken p)).map tokenMonth)))).map
          (fun mo => formatYM y mo)), ?_, ?_⟩
    · simp only [detect_missing_months]
      rw [if_neg hye, hyears, hmonths]
      rfl
    · intro s
      rw [List.mem_flatMap]
      constructor
      · rintro ⟨y, hy, hs⟩
        obtain ⟨mo, hmo, hfmt⟩ := List.mem_map.mp hs
        obtain ⟨hmol, hmop⟩ := List.mem_filter.mp hmo
        obtain ⟨h1, h2⟩ := (mem_monthsList_iff mo).mp hmol
        have hyy : y ∈ (periods.filter (fun p => isYMToken p)).map tokenYear := by
          have := (List.perm_insertionSort (· ≤ ·)
            ((periods.filter (fun p => isYMToken p)).map tokenYear).dedup).mem_iff.mp hy
          exact List.mem_dedup.mp this
        obtain ⟨p, hpmem, hpy⟩ := List.mem_map.mp hyy
        obtain ⟨hpm, hpt⟩ := List.mem_filter.mp hpmem
        refine ⟨y, ⟨p, hpm, hpt, hpy⟩, mo, h1, h2, ?_, hfmt.symm⟩
        intro q hq hqt hqmo
        have hqmem : tokenMonth q ∈
            (periods.filter (fun p => isYMToken p)).map tokenMonth :=
          List.mem_map.mpr ⟨q, List.mem_filter.mpr ⟨hq, hqt⟩, rfl⟩
        rw [hqmo] at hqmem
        simp only [Bool.not_eq_true', decide_eq_false_iff_not] at hmop
        exact hmop hqmem
      · rintro ⟨y, ⟨p, hpm, hpt, hpy⟩, mo, h1, h2, hnone, hfmt⟩
        refine ⟨y, ?_, ?_⟩
        · apply (List.perm_insertionSort (· ≤ ·)
            ((periods.filter (fun p => isYMToken p)).map tokenYear).dedup).mem_iff.mpr
          apply List.mem_dedup.mpr
          exact List.mem_map.mpr ⟨p, List.mem_filter.mpr ⟨hpm, hpt⟩, hpy⟩
        · apply List.mem_map.mpr
          refine ⟨mo, ?_, hfmt.symm⟩
          apply List.mem_filter.mpr
          refine ⟨(mem_monthsList_iff mo).mpr ⟨h1, h2⟩, ?_⟩
          simp only [Bool.not_eq_true', decide_eq_false_iff_not]
          intro hmem
          obtain ⟨q, hqmem, hqmo⟩ := List.mem_map.mp hmem
          obtain ⟨hqm, hqt⟩ := List.mem_filter.mp hqmem
          exact hnone q hqm hqt hqmo

/-! ## C8: missing-month computation -/

/-- C8: detect_missing_months restricts the tokens to those matching the
anchored `YYYY-MM` pattern, and returns exactly the strings
`"{year}-{month:02d}"` for every year carried by some such token and every
month 1..12 carried by none of them (the months-present set is aggregated
across all years, so a month seen in any year is never reported missing
for another year); in particular for tokens 2023-01 and 2023-03 it
reports every month of 2023 except 01 and 03. -/
theorem detect_missing_months_spec (periods : List String)
    (hwf : ∀ p ∈ periods, isYMToken p = true → p.data.length = 7) :
    (∃ l, detect_missing_months periods = some l ∧
      ∀ s, s ∈ l ↔
        ∃ y, (∃ p ∈ periods, isYMToken p = true ∧ tokenYear p = y) ∧
          ∃ mo, 1 ≤ mo ∧ mo ≤ 12 ∧
            (∀ p ∈ periods, isYMToken p = true → tokenMonth p ≠ mo) ∧
            s = formatYM y mo) ∧
    detect_missing_months ["2023-01", "2023-03"] =
      some ["2023-02", "2023-04", "2023-05", "2023-06", "2023-07",
        "2023-08", "2023-09", "2023-10", "2023-11", "2023-12"] :=
  ⟨detect_missing_months_eval periods hwf, by decide⟩

theorem detect_missing_months_spec_witness :
    ((∃ l, detect_missing_months ["2023-01", "2023-03"] = some l ∧
      ∀ s, s ∈ l ↔
        ∃ y, (∃ p ∈ (["2023-01", "2023-03"] : List String),
            isYMToken p = true ∧ tokenYear p = y) ∧
          ∃ mo, 1 ≤ mo ∧ mo ≤ 12 ∧
            (∀ p ∈ (["2023-01", "2023-03"] : List String),
              isYMToken p = true → tokenMonth p ≠ mo) ∧
            s = formatYM y mo) ∧
    detect_missing_months ["2023-01", "2023-03"] =
      some ["2023-02", "2023-04", "2023-05", "2023-06", "2023-07",
        "2023-08", "2023-09", "2023-10", "2023-11", "2023-12"]) :=
  detect_missing_months_spec ["2023-01", "2023-03"] (by decide)

/-! ## Validator lemmas for C2 -/

theorem mapOpt_isSome (f : α → Option β) :
    ∀ l : List α, (∀ a ∈ l, ∃ b, f a = some b) →
      ∃ ys, mapOpt f l = some ys := by
  intro l
  induction l with
  | nil => intro _; exact ⟨[], rfl⟩
  | cons a t ih =>
    intro h
    obtain ⟨b, hb⟩ := h a (List.mem_cons_self a t)
    obtain ⟨ys, hys⟩ := ih (fun x hx => h x (List.mem_cons_of_mem a hx))
    exact ⟨b :: ys, by simp [mapOpt, hb, hys]⟩

theorem mapOpt_mem (f : α → Option β) :
    ∀ (l : List α) (ys : List β), mapOpt f l = some ys →
      ∀ y ∈ ys, ∃ x ∈ l, f x = some y := by
  intro l
  induction l with
  | nil =>
    intro ys h y hy
    simp only [mapOpt, Option.some.injEq] at h
    rw [← h] at hy
    exact absurd hy (List.not_mem_nil y)
  | cons a t ih =>
    intro ys h y hy
    simp only [mapOpt] at h
    cases hfa : f a with
    | none => rw [hfa] at h; exact absurd h (by simp)
    | some b =>
      rw [hfa] at h
      cases hmt : mapOpt f t with
      | none => rw [hmt] at h; exact absurd h (by simp)
      | some bs =>
        rw [hmt] at h
        simp only [Option.some.injEq] at h
        rw [← h] at hy
        rcases List.mem_cons.mp hy with hyb | hyb
        · exact ⟨a, List.mem_cons_self a t, by rw [hfa, hyb]⟩
        · obtain ⟨x, hx, hfx⟩ := ih bs hmt y hyb
          exact ⟨x, List.mem_cons_of_mem a hx, hfx⟩

theorem buildDetail_isSome (o : TextOracles)
    (classification : List (String × Flags)) (pt : String × String)
    (hwf : ∀ p ∈ o.detectPeriods pt.2, isYMToken p = true →
      p.data.length = 7) :
    ∃ d, buildDetail o classification pt = some d := by
  obtain ⟨mm, hmm, -⟩ := detect_missing_months_eval (o.detectPeriods pt.2) hwf
  simp only [buildDetail]
  rw [hmm]
  exact ⟨_, rfl⟩

theorem buildDetail_passes_link (o : TextOracles)
    (classification : List (String × Flags)) (pt : String × String)
    (d : ValidationDetail) (h : buildDetail o classification pt = some d) :
    d.passesNumericPresence = decide (5 < d.numericValuesFound) := by
  simp only [buildDetail, Option.map_eq_some'] at h
  obtain ⟨mm, -, hd⟩ := h
  rw [← hd]

/-! ## C2: validation passes iff no failure and no continuity break -/

/-- C2: whenever validate_documents returns, `summary.passes` is true
exactly when no document's detail has a non-empty missing_fields list, a
non-empty format_errors list or at most 5 numeric values, and no two
adjacent entries of the sorted distinct detected years differ by more than
1; under well-formed detected period tokens the validator always
returns. -/
theorem validate_documents_passes_iff (o : TextOracles)
    (pdfTexts : List (String × String))
    (classification : List (String × Flags))
    (hwf : ∀ pt ∈ pdfTexts, ∀ p ∈ o.detectPeriods pt.2,
      isYMToken p = true → p.data.length = 7)
    (summary : ValidationSummary) (details : List ValidationDetail)
    (hres : validate_documents o pdfTexts classification =
      some (summary, details)) :
    (∃ r, validate_documents o pdfTexts classification = some r) ∧
    (summary.passes = true ↔
      ((∀ pr ∈ summary.yearsDetected.zip summary.yearsDetected.tail,
          pr.2 ≤ pr.1 + 1) ∧
       (∀ d ∈ details, d.missingFields = [] ∧ d.formatErrors = [] ∧
          5 < d.numericValuesFound))) := by
  constructor
  · obtain ⟨ds, hds⟩ := mapOpt_isSome (buildDetail o classification) pdfTexts
      (fun pt hpt => buildDetail_isSome o classification pt (hwf pt hpt))
    simp only [validate_documents]
    rw [hds]
    exact ⟨_, rfl⟩
  simp only [validate_documents] at hres
  rw [Option.map_eq_some'] at hres
  obtain ⟨ds, hds, heq⟩ := hres
  rw [Prod.mk.injEq] at heq
  obtain ⟨hsum, hdet⟩ := heq
  subst hdet
  subst hsum
  dsimp only
  rw [Bool.and_eq_true, List.isEmpty_iff, List.isEmpty_iff]
  have hbreaks :
      ((pySortedSetNat ((ds.flatMap (fun d => d.periods)).filterMap
          yearOfPeriod)).zip
        (pySortedSetNat ((ds.flatMap (fun d => d.periods)).filterMap
          yearOfPeriod)).tail).filterMap (fun pr =>
          if pr.1 + 1 < pr.2 then
            some ("Gap between " ++ toString pr.1 ++ " and " ++ toString pr.2)
          else none) = [] ↔
      ∀ pr ∈ (pySortedSetNat ((ds.flatMap (fun d => d.periods)).filterMap
          yearOfPeriod)).zip
        (pySortedSetNat ((ds.flatMap (fun d => d.periods)).filterMap
          yearOfPeriod)).tail, pr.2 ≤ pr.1 + 1 := by
    rw [List.filterMap_eq_nil_iff]
    constructor
    · intro h pr hpr
      have hnone := h pr hpr
      by_contra hlt
      rw [if_pos (not_le.mp hlt)] at hnone
      exact absurd hnone (by simp)
    · intro h pr hpr
      rw [if_neg (not_lt.mpr (h pr hpr))]
  have hfails :
      (ds.filter (fun d => !d.missingFields.isEmpty ||
        !d.formatErrors.isEmpty || !d.passesNumericPresence) = []) ↔
      ∀ d ∈ ds, d.missingFields = [] ∧ d.formatErrors = [] ∧
        5 < d.numericValuesFound := by
    have hpred : ∀ d : ValidationDetail,
        d.passesNumericPresence = decide (5 < d.numericValuesFound) →
        ((!d.missingFields.isEmpty || !d.formatErrors.isEmpty ||
          !d.passesNumericPresence) = true ↔
          ¬(d.missingFields = [] ∧ d.formatErrors = [] ∧
            5 < d.numericValuesFound)) := by
      intro d hlink
      rw [hlink]
      simp [List.isEmpty_iff]
      tauto
    rw [List.filter_eq_nil_iff]
    constructor
    · intro h d hd
      obtain ⟨pt, -, hbuild⟩ := mapOpt_mem _ pdfTexts ds hds d hd
      have hlink := buildDetail_passes_link o classification pt d hbuild
      have hp := h d hd
      rw [hpred d hlink] at hp
      exact not_not.mp hp
    · intro h d hd
      obtain ⟨pt, -, hbuild⟩ := mapOpt_mem _ pdfTexts ds hds d hd
      have hlink := buildDetail_passes_link o classification pt d hbuild
      rw [hpred d hlink]
      exact not_not.mpr (h d hd)
  rw [hbreaks, hfails]

theorem validate_documents_passes_iff_witness :
    (∃ r, validate_documents oNoDates [] [] = some r) ∧
    ((⟨0, [], [], [], 0, true⟩ : ValidationSummary).passes = true ↔
      ((∀ pr ∈ (⟨0, [], [], [], 0, true⟩ :
            ValidationSummary).yearsDetected.zip
          (⟨0, [], [], [], 0, true⟩ :
            ValidationSummary).yearsDetected.tail,
          pr.2 ≤ pr.1 + 1) ∧
       (∀ d ∈ ([] : List ValidationDetail), d.missingFields = [] ∧
          d.formatErrors = [] ∧ 5 < d.numericValuesFound))) :=
  validate_documents_passes_iff oNoDates [] []
    (fun pt hpt => absurd hpt (List.not_mem_nil pt))
    ⟨0, [], [], [], 0, true⟩ [] rfl

end Informatics
